import Mathlib

/-!
Verification of the super-simple-sampler streaming engine.

This file shallowly embeds the realtime playback core of the repository:
`StreamingVoice.cpp` (voice lifecycle and the per-frame render loop),
`DiskStreamer.cpp` (the refill routine `fillVoiceBuffer`), and the
streaming dispatch in `PluginProcessor.cpp` (`handleNoteOnStreaming`,
`loadInstrumentStreaming`).  C++ `float`/`double` arithmetic is embedded
as exact rational arithmetic (every concrete input used below is exactly
representable, and every product/sum on it is exact in IEEE binary32/64);
machine integers are embedded as `Int` (the positions are `int64_t`
counters that never overflow in any scenario considered).  The external
`juce::ADSR` envelope is abstracted: its per-frame value and activity are
supplied by an oracle, and its mode (idle / after note-on / after
note-off) is tracked symbolically.
-/

namespace SSS

/-- `StreamingConstants::ringBufferFrames` (DiskStreaming.h). -/
def ringBufferFrames : Int := 32768

/-- `StreamingConstants::lowWatermarkFrames` (DiskStreaming.h). -/
def lowWatermarkFrames : Int := 8192

/-- `StreamingConstants::diskReadFrames` (DiskStreaming.h). -/
def diskReadFrames : Int := 4096

/-- `StreamingConstants::maxStreamingVoices` (DiskStreaming.h). -/
def maxStreamingVoices : Int := 64

/-- `StreamingConstants::underrunFadeOutSamples` (DiskStreaming.h). -/
def underrunFadeOutSamples : Nat := 64

/-- C++ `static_cast<int>` / `static_cast<int64_t>` on a floating value:
truncation toward zero. -/
def truncToInt (q : ℚ) : ℤ := if 0 ≤ q then ⌊q⌋ else ⌈q⌉

/-- A `juce::AudioBuffer<float>` of decoded frames: channels of equal length. -/
def AudioBuf : Type := List (List ℚ)

/-- `buffer.getNumSamples()` (frame count of channel 0). -/
def AudioBuf.numSamples (b : AudioBuf) : ℤ := (b.headD []).length

/-- `buffer.getNumChannels()`. -/
def AudioBuf.numChannels (b : AudioBuf) : ℤ := b.length

/-- `buffer.getSample(ch, i)` (indices nonnegative at every use site). -/
def AudioBuf.sampleAt (b : AudioBuf) (ch : ℤ) (i : ℤ) : ℚ :=
  (b.getD ch.toNat []).getD i.toNat 0

/-- `PreloadedSample` (DiskStreaming.h). -/
structure PreloadedSample where
  preloadBuffer : AudioBuf
  filePath : String
  totalSampleFrames : ℤ
  sampleRate : ℚ
  numChannels : ℤ
  rootNote : ℤ
  lowNote : ℤ
  highNote : ℤ
  lowVelocity : ℤ
  highVelocity : ℤ
  name : String
  preloadSizeFrames : ℤ

/-- `PreloadedSample::isValid`. -/
def PreloadedSample.isValid (s : PreloadedSample) : Bool :=
  decide (s.totalSampleFrames > 0) && decide (s.filePath ≠ "")

/-- `PreloadedSample::needsStreaming`. -/
def PreloadedSample.needsStreaming (s : PreloadedSample) : Bool :=
  decide (s.totalSampleFrames > s.preloadSizeFrames)

/-- `PreloadedSample::containsNote`. -/
def PreloadedSample.containsNote (s : PreloadedSample) (midiNote : ℤ) : Bool :=
  decide (midiNote ≥ s.lowNote) && decide (midiNote ≤ s.highNote)

/-- `PreloadedSample::containsVelocity`. -/
def PreloadedSample.containsVelocity (s : PreloadedSample) (velocity : ℤ) : Bool :=
  decide (velocity ≥ s.lowVelocity) && decide (velocity ≤ s.highVelocity)

/-- `PreloadedSample::matches`. -/
def PreloadedSample.matchesZone (s : PreloadedSample) (midiNote velocity : ℤ) : Bool :=
  s.containsNote midiNote && s.containsVelocity velocity

/-- Mode of the external `juce::ADSR` envelope (abstracted): which of
`reset` / `noteOn` / `noteOff` it last received. -/
inductive AdsrPhase where
  | idle
  | noteOnPhase
  | releasePhase
deriving DecidableEq, Repr

/-- `juce::ADSR::noteOn()` as seen through the abstraction. -/
def adsrNoteOn (_ : AdsrPhase) : AdsrPhase := .noteOnPhase

/-- `juce::ADSR::noteOff()` as seen through the abstraction. -/
def adsrNoteOff (_ : AdsrPhase) : AdsrPhase := .releasePhase

/-- The mutable state of one `StreamingVoice` (StreamingVoice.h data
members; the ring buffer is a function from (channel, physical index
< 32768) to the stored sample). -/
structure Voice where
  currentSample : Option PreloadedSample
  ringBuffer : ℕ → ℕ → ℚ
  readPosition : ℤ
  writePosition : ℤ
  fileReadPosition : ℤ
  active : Bool
  needsData : Bool
  endOfFile : Bool
  readError : Bool
  playingNote : ℤ
  velocity : ℚ
  pitchRatio : ℚ
  sourceSamplePosition : ℚ
  adsr : AdsrPhase
  sustainedByPedal : Bool
  isUnderrunning : Bool
  underrunFadePosition : ℕ

/-- A freshly constructed `StreamingVoice` (member initializers in
StreamingVoice.h; the constructor clears the ring buffer). -/
def freshVoice : Voice where
  currentSample := none
  ringBuffer := fun _ _ => 0
  readPosition := 0
  writePosition := 0
  fileReadPosition := 0
  active := false
  needsData := false
  endOfFile := false
  readError := false
  playingNote := -1
  velocity := 0
  pitchRatio := 1
  sourceSamplePosition := 0
  adsr := .idle
  sustainedByPedal := false
  isUnderrunning := false
  underrunFadePosition := 0

/-- `StreamingVoice::reset` (StreamingVoice.cpp lines 108-116): clears
exactly `active`, `needsData`, the envelope, `playingNote`,
`sustainedByPedal` and `currentSample` -- nothing else. -/
def Voice.reset (v : Voice) : Voice :=
  { v with active := false, needsData := false, adsr := .idle,
           playingNote := -1, sustainedByPedal := false, currentSample := none }

/-- `StreamingVoice::startVoice` (StreamingVoice.cpp lines 31-94).
`pr` stands for the pitch ratio computed from the two note frequencies
and the sample-rate quotient; its real value never matters to any claim
(`pr = 1` is attained exactly when the note equals the root note and the
rates agree). -/
def Voice.startVoice (pr : ℚ) (sample : Option PreloadedSample)
    (midiNote : ℤ) (vel : ℚ) (v : Voice) : Voice :=
  match sample with
  | none => v
  | some s =>
    if s.isValid = false then v
    else
      let framesToCopy : ℤ := min s.preloadBuffer.numSamples ringBufferFrames
      { v with
        currentSample := some s
        playingNote := midiNote
        velocity := vel
        pitchRatio := pr
        sourceSamplePosition := 0
        readPosition := 0
        fileReadPosition := framesToCopy
        endOfFile := false
        readError := false
        isUnderrunning := false
        underrunFadePosition := 0
        sustainedByPedal := false
        ringBuffer := fun ch i =>
          if ch < (min s.preloadBuffer.numChannels 2).toNat ∧ (i : ℤ) < framesToCopy
          then s.preloadBuffer.sampleAt ch i else 0
        writePosition := framesToCopy
        adsr := adsrNoteOn v.adsr
        needsData := if s.needsStreaming then true else v.needsData
        active := true }

/-- `StreamingVoice::stopVoice`. -/
def Voice.stopVoice (allowTailOff : Bool) (v : Voice) : Voice :=
  if allowTailOff then { v with adsr := adsrNoteOff v.adsr } else v.reset

/-- `StreamingVoice::checkAndRequestData` (StreamingVoice.cpp lines 161-174). -/
def Voice.checkAndRequestData (v : Voice) : Voice :=
  match v.currentSample with
  | none => v
  | some s =>
    if s.needsStreaming = false then v
    else if v.endOfFile || v.readError then v
    else if v.writePosition - v.readPosition < lowWatermarkFrames then
      { v with needsData := true }
    else v

/-- The contribution one rendered frame adds to the two output channels,
and the underrun fade factor it was multiplied by. -/
structure FrameOut where
  fade : ℚ
  outL : ℚ
  outR : ℚ
deriving DecidableEq, Repr

/-- One iteration of the per-frame loop of `StreamingVoice::renderNextBlock`
(StreamingVoice.cpp lines 199-298).  `env idx` supplies the pair
(`adsr.getNextSample()` value, `adsr.isActive()` afterwards) of the
external envelope.  `cWP`/`cRP` are the block-local copies
`currentWritePos`/`currentReadPos`; `total`, `streaming`, `preload` and
`numSourceChannels` are the block-local snapshots of the current sample.
Returns `Sum.inl v` when the frame hit one of the three reset-and-return
paths, `Sum.inr (v, cRP, out)` otherwise.  The underrun-entry
check, the fade value, the fade advance and the interpolated output are
split into named helpers so the theorems below can reason about them
one step at a time; their composition in `renderFrame` follows the
source statement order exactly. -/
def underrunCheck (streaming : Bool) (cWP cRP : ℤ) (v : Voice) : Voice :=
  if streaming ∧ cWP - cRP ≤ 2 ∧ v.endOfFile = false ∧ v.isUnderrunning = false
  then { v with isUnderrunning := true, underrunFadePosition := 0 }
  else v

/-- The fade factor `1.0f - underrunFadePosition / underrunFadeOutSamples`
(1 when not underrunning), StreamingVoice.cpp lines 232-235. -/
def underrunFadeValue (v : Voice) : ℚ :=
  if v.isUnderrunning then 1 - (v.underrunFadePosition : ℚ) / 64 else 1

/-- `underrunFadePosition++` when underrunning (StreamingVoice.cpp line 242). -/
def underrunAdvance (v : Voice) : Voice :=
  if v.isUnderrunning
  then { v with underrunFadePosition := v.underrunFadePosition + 1 }
  else v

/-- Linear interpolation and gain staging of one output channel
(StreamingVoice.cpp lines 245-284). -/
def channelOut (streaming : Bool) (preload : AudioBuf) (numSourceChannels : ℤ)
    (v : Voice) (envelopeValue underrunFade : ℚ) (pos0 pos1 : ℤ) (ch : ℤ) : ℚ :=
  let frac : ℚ := v.sourceSamplePosition - (pos0 : ℚ)
  let sourceChannel := min ch (numSourceChannels - 1)
  let sample0 :=
    if streaming = false then preload.sampleAt sourceChannel pos0
    else v.ringBuffer sourceChannel.toNat (pos0.tmod ringBufferFrames).toNat
  let sample1 :=
    if streaming = false then preload.sampleAt sourceChannel pos1
    else v.ringBuffer sourceChannel.toNat (pos1.tmod ringBufferFrames).toNat
  (sample0 + frac * (sample1 - sample0)) * v.velocity * envelopeValue * underrunFade

/-- One whole frame. -/
def renderFrame (env : ℕ → ℚ × Bool) (total : ℤ) (streaming : Bool)
    (preload : AudioBuf) (numSourceChannels : ℤ) (cWP : ℤ) (idx : ℕ)
    (v : Voice) (cRP : ℤ) : Voice ⊕ (Voice × ℤ × FrameOut) :=
  if (total : ℚ) ≤ v.sourceSamplePosition then Sum.inl v.reset
  else if (env idx).2 = false then Sum.inl v.reset
  else if (underrunCheck streaming cWP cRP v).isUnderrunning = true ∧
      underrunFadeValue (underrunCheck streaming cWP cRP v) ≤ 0 then
    Sum.inl (underrunCheck streaming cWP cRP v).reset
  else
    let envelopeValue := (env idx).1
    let v1 := underrunCheck streaming cWP cRP v
    let fade := underrunFadeValue v1
    let v2 := underrunAdvance v1
      let pos0 := truncToInt v2.sourceSamplePosition
      let pos1 := if total ≤ pos0 + 1 then pos0 else pos0 + 1
      let out : FrameOut :=
        ⟨fade, channelOut streaming preload numSourceChannels v2 envelopeValue fade pos0 pos1 0,
         channelOut streaming preload numSourceChannels v2 envelopeValue fade pos0 pos1 1⟩
      let v3 := { v2 with sourceSamplePosition := v2.sourceSamplePosition + v2.pitchRatio }
      let newCRP :=
        if streaming = true then
          if cRP < truncToInt v3.sourceSamplePosition
          then truncToInt v3.sourceSamplePosition else cRP
        else cRP
      Sum.inr (v3, newCRP, out)

/-- The whole per-frame loop: iterates `renderFrame` over `n` frames.
Returns the voice, the final `currentReadPos`, whether the loop ran to
completion (no mid-block reset-and-return), and the rendered frames. -/
def renderLoop (env : ℕ → ℚ × Bool) (total : ℤ) (streaming : Bool)
    (preload : AudioBuf) (numSourceChannels : ℤ) (cWP : ℤ) :
    ℕ → ℕ → Voice → ℤ → Voice × ℤ × Bool × List FrameOut
  | 0, _, v, cRP => (v, cRP, true, [])
  | n + 1, idx, v, cRP =>
    match renderFrame env total streaming preload numSourceChannels cWP idx v cRP with
    | Sum.inl vStopped => (vStopped, cRP, false, [])
    | Sum.inr (v2, cRP2, out) =>
      let rest := renderLoop env total streaming preload numSourceChannels cWP n (idx + 1) v2 cRP2
      (rest.1, rest.2.1, rest.2.2.1, out :: rest.2.2.2)

/-- `StreamingVoice::renderNextBlock` (StreamingVoice.cpp lines 186-318):
guard, per-frame loop, then -- only when the loop completed and the sample
streams -- the release store of `readPosition` and `checkAndRequestData`. -/
def Voice.renderNextBlock (env : ℕ → ℚ × Bool) (numSamples : ℕ) (v : Voice) :
    Voice × List FrameOut :=
  if v.active = false then (v, [])
  else
    match v.currentSample with
    | none => (v, [])
    | some s =>
      match renderLoop env s.totalSampleFrames s.needsStreaming s.preloadBuffer
              s.numChannels v.writePosition numSamples 0 v v.readPosition with
      | (vEnd, _, completed, outs) =>
        if completed && s.needsStreaming then
          let v2 := { vEnd with readPosition := truncToInt vEnd.sourceSamplePosition }
          (v2.checkAndRequestData, outs)
        else (vEnd, outs)

/-- The ring-buffer writes of one chunk of `DiskStreamer::fillVoiceBuffer`
(DiskStreamer.cpp lines 182-209): for each served channel, frame `f` of the
scratch buffer lands at physical index `(writePos + f) % 32768`; a mono
source is duplicated onto channel 1.  `data ch f` is the scratch-buffer
content (the decoded file frames).  Stated as a lookup: physical index `i`
(always `< 32768` at use sites) was written by offset
`(i - writePos) mod 32768` when that offset lies in the chunk. -/
def ringWriteChunk (ring : ℕ → ℕ → ℚ) (writePos : ℤ) (framesToRead : ℤ)
    (numChannels : ℤ) (monoDup : Bool) (data : ℕ → ℤ → ℚ) : ℕ → ℕ → ℚ :=
  fun ch i =>
    let off := ((i : ℤ) - writePos).emod ringBufferFrames
    if ((ch : ℤ) < numChannels ∨ (monoDup ∧ ch = 1)) ∧ off < framesToRead
    then data (if (ch : ℤ) < numChannels then ch else 0) off
    else ring ch i

/-- The refill `while` loop of `DiskStreamer::fillVoiceBuffer`
(DiskStreamer.cpp lines 158-218), as fuel recursion (each iteration
advances `filePos` by at least one frame, so fuel `(total - filePos)` is
enough; the invariants below hold for every fuel).  `readOk k` is the
success of the `k`-th `reader->read`, `fileData ch pos` the decoded file
content.  The shutdown flag is `false` throughout (the scenarios of the
claims have no shutdown).  Returns the voice and the final `filePos`. -/
def fillLoop (readOk : ℕ → Bool) (fileData : ℕ → ℤ → ℚ) (total : ℤ)
    (sampleNumChannels : ℤ) : ℕ → ℕ → ℤ → Voice → Voice × ℤ
  | 0, _, filePos, v => (v, filePos)
  | fuel + 1, k, filePos, v =>
    if diskReadFrames ≤ ringBufferFrames - (v.writePosition - v.readPosition) ∧
        filePos < total then
      if min (min diskReadFrames (total - filePos))
          (ringBufferFrames - (v.writePosition - v.readPosition)) ≤ 0 then (v, filePos)
      else if readOk k = false then ({ v with readError := true }, filePos)
      else
        let framesToRead := min (min diskReadFrames (total - filePos))
          (ringBufferFrames - (v.writePosition - v.readPosition))
        let writePos := v.writePosition.tmod ringBufferFrames
        let numChannels := min 2 sampleNumChannels
        let monoDup := numChannels = 1 ∧ sampleNumChannels < 2
        let v2 := { v with
          ringBuffer := ringWriteChunk v.ringBuffer writePos framesToRead numChannels
            (decide monoDup) (fun ch f => fileData ch (filePos + f))
          writePosition := v.writePosition + framesToRead }
        let filePos2 := filePos + framesToRead
        let v3 := { v2 with fileReadPosition := filePos2 }
        fillLoop readOk fileData total sampleNumChannels fuel (k + 1) filePos2 v3
    else (v, filePos)

/-- `DiskStreamer::fillVoiceBuffer` (DiskStreamer.cpp lines 109-233) for
one voice.  `openOk` is whether the decoder could be opened (or was
already open for the right file); `readerLen` is `reader->lengthInSamples`. -/
def fillVoiceBuffer (openOk : Bool) (readerLen : ℤ) (readOk : ℕ → Bool)
    (fileData : ℕ → ℤ → ℚ) (v : Voice) : Voice :=
  match v.currentSample with
  | none => v
  | some s =>
    if s.isValid = false then v
    else if openOk = false then { v with readError := true, needsData := false }
    else if readerLen ≤ v.fileReadPosition then
      { v with endOfFile := true, needsData := false }
    else if ringBufferFrames - (v.writePosition - v.readPosition) < diskReadFrames then
      { v with needsData := false }
    else if readerLen ≤ (fillLoop readOk fileData readerLen s.numChannels
        (readerLen - v.fileReadPosition).toNat 0 v.fileReadPosition v).2 then
      { (fillLoop readOk fileData readerLen s.numChannels
          (readerLen - v.fileReadPosition).toNat 0 v.fileReadPosition v).1 with
        endOfFile := true, needsData := false }
    else
      { (fillLoop readOk fileData readerLen s.numChannels
          (readerLen - v.fileReadPosition).toNat 0 v.fileReadPosition v).1 with
        needsData := false }

/-- One audio-thread call: the host block size and the envelope oracle. -/
structure RenderCall where
  numSamples : ℕ
  env : ℕ → ℚ × Bool

/-- One disk-thread call: decoder-open success, decoder length, per-read
success, and decoded file contents. -/
structure FillCall where
  openOk : Bool
  readerLen : ℤ
  readOk : ℕ → Bool
  fileData : ℕ → ℤ → ℚ

/-- One step of an interleaving of audio-thread renders and disk-thread
refills on one voice. -/
inductive Step where
  | render (c : RenderCall)
  | fill (c : FillCall)

/-- Apply one step to the voice. -/
def applyStep (st : Step) (v : Voice) : Voice :=
  match st with
  | .render c => (v.renderNextBlock c.env c.numSamples).1
  | .fill c => fillVoiceBuffer c.openOk c.readerLen c.readOk c.fileData v

/-- Run an interleaving. -/
def runSteps (steps : List Step) (v : Voice) : Voice :=
  steps.foldl (fun v st => applyStep st v) v

/-- Run a sequence of audio-thread renders only (disk thread never runs). -/
def runRenders (calls : List RenderCall) (v : Voice) : Voice :=
  calls.foldl (fun v c => (v.renderNextBlock c.env c.numSamples).1) v

/-- The C++ default-constructed `PreloadedSample` (member initializers in
DiskStreaming.h); only used as the never-hit default of list lookups. -/
def defaultPreloadedSample : PreloadedSample where
  preloadBuffer := []
  filePath := ""
  totalSampleFrames := 0
  sampleRate := 44100
  numChannels := 2
  rootNote := 60
  lowNote := 0
  highNote := 127
  lowVelocity := 1
  highVelocity := 127
  name := ""
  preloadSizeFrames := 0

/-- The streaming-side state of `SuperSimpleSamplerProcessor` that the
claims touch: the catalog, the per-note round-robin table
(`std::map<int,int>`, absent keys read as 0), and `selectedZoneIndex`. -/
structure ProcSt where
  preloadedSamples : List PreloadedSample
  roundRobinCounters : ℤ → ℕ
  selectedZoneIndex : ℤ

/-- `SuperSimpleSamplerProcessor::findMatchingPreloadedSamples`
(PluginProcessor.cpp lines 650-663): the indices, in order, of the catalog
samples whose zone contains (note, velocity). -/
def findMatchingPreloadedSamples (samples : List PreloadedSample)
    (midiNote velocity : ℤ) : List ℕ :=
  (List.range samples.length).filter
    (fun i => (samples.getD i defaultPreloadedSample).matchesZone midiNote velocity)

/-- The voice-scan `for` loop of `handleNoteOnStreaming` (PluginProcessor.cpp
lines 754-762): first index `i` in `start, start+1, ...` (`rem` slots left)
with an inactive voice. -/
def findFreeVoice (voices : List Voice) : ℕ → ℕ → Option ℕ
  | 0, _ => none
  | rem + 1, i =>
    if (voices.getD i freshVoice).active = false then some i
    else findFreeVoice voices rem (i + 1)

/-- Voice allocation of `handleNoteOnStreaming` (PluginProcessor.cpp lines
753-766): start the first free voice below the limit, else steal slot 0
(`stopVoice(false)` then start). -/
def allocateAndStart (startOne : Voice → Voice) (voices : List Voice)
    (maxVoices : ℕ) : List Voice :=
  match findFreeVoice voices maxVoices 0 with
  | some i => voices.set i (startOne (voices.getD i freshVoice))
  | none => voices.set 0 (startOne ((voices.getD 0 freshVoice).stopVoice false))

/-- Body of `SuperSimpleSamplerProcessor::handleNoteOnStreaming`
(PluginProcessor.cpp lines 723-767) with the integer velocity a parameter,
so that the code's conversion and the spec's conversion can be compared on
the same dispatch. -/
def noteOnWithIntVel (pr : ℚ) (poly : ℤ) (note : ℤ) (velFloat : ℚ)
    (intVelocity : ℤ) (p : ProcSt) (voices : List Voice) : ProcSt × List Voice :=
  let matchingSamples := findMatchingPreloadedSamples p.preloadedSamples note intVelocity
  if matchingSamples.isEmpty then (p, voices)
  else
    let c := p.roundRobinCounters note
    let rrIndex := c % matchingSamples.length
    let selectedIndex := matchingSamples.getD rrIndex 0
    let p2 := { p with roundRobinCounters :=
                  fun m => if m = note then c + 1 else p.roundRobinCounters m }
    let selectedSample := p.preloadedSamples.getD selectedIndex defaultPreloadedSample
    let maxVoices := (min poly maxStreamingVoices).toNat
    (p2, allocateAndStart (Voice.startVoice pr (some selectedSample) note velFloat)
           voices maxVoices)

/-- `SuperSimpleSamplerProcessor::handleNoteOnStreaming`: the code converts
the float velocity with `static_cast<int>(velocity * 127.0f)`, i.e.
truncation. -/
def handleNoteOnStreaming (pr : ℚ) (poly : ℤ) (note : ℤ) (velFloat : ℚ)
    (p : ProcSt) (voices : List Voice) : ProcSt × List Voice :=
  noteOnWithIntVel pr poly note velFloat (truncToInt (velFloat * 127)) p voices

/-- Rounding to the nearest integer.  This is the SPEC's words
("vel = round(vel_float * 127)"), not the code's conversion; defined only
to be compared against `handleNoteOnStreaming`. -/
def specRound (q : ℚ) : ℤ := ⌊q + 1 / 2⌋

/-- The note-on dispatch as the spec section 4.4 words it, with the
velocity ROUNDED; to be compared with `handleNoteOnStreaming`. -/
def specNoteOnRounded (pr : ℚ) (poly : ℤ) (note : ℤ) (velFloat : ℚ)
    (p : ProcSt) (voices : List Voice) : ProcSt × List Voice :=
  noteOnWithIntVel pr poly note velFloat (specRound (velFloat * 127)) p voices

/-- One `<sample ...>` element of a parsed manifest; attributes that may be
absent (defaults applied by `getIntAttribute`) are `Option`. -/
structure XmlSampleElem where
  file : String
  rootNote : Option ℤ
  loNote : Option ℤ
  hiNote : Option ℤ
  loVel : Option ℤ
  hiVel : Option ℤ

/-- A successfully parsed XML document: root tag plus the `<sample>`
children of `<samples>`. -/
structure XmlDoc where
  rootTag : String
  sampleElems : List XmlSampleElem

/-- `SuperSimpleSamplerProcessor::loadInstrumentStreaming`
(PluginProcessor.cpp lines 530-606).  `parsed` is the result of
`XmlDocument::parse` (`none` = unparsable); `loadPreloaded` models
`loadPreloadedSample` (decoder I/O), returning the sample with its file
metadata and preload filled in, or `none` on failure.  Note the code
clears the catalog and the round-robin table BEFORE validating the
manifest. -/
def loadInstrumentStreaming (parsed : Option XmlDoc)
    (loadPreloaded : String → Option PreloadedSample) (p : ProcSt) : ProcSt :=
  let p1 := { p with preloadedSamples := [], roundRobinCounters := fun _ => 0 }
  match parsed with
  | none => p1
  | some doc =>
    if doc.rootTag ≠ "SuperSimpleSampler" then p1
    else
      let samples := doc.sampleElems.filterMap (fun e =>
        (loadPreloaded e.file).map (fun s =>
          { s with rootNote := e.rootNote.getD 60
                   lowNote := e.loNote.getD 0
                   highNote := e.hiNote.getD 127
                   lowVelocity := e.loVel.getD 1
                   highVelocity := e.hiVel.getD 127 }))
      { p1 with preloadedSamples := samples
                selectedZoneIndex := if samples.isEmpty then -1 else 0 }

/-- The fields `startVoice` stores to, reified to state the order of the
stores (C++ sequencing; the atomics use release ordering, so a thread that
observes a later store observes all earlier ones). -/
inductive VoiceField where
  | currentSampleF
  | playingNoteF
  | velocityF
  | pitchRatioF
  | sourcePositionF
  | readPositionF
  | writePositionF
  | fileReadPositionF
  | endOfFileF
  | readErrorF
  | underrunF
  | sustainedByPedalF
  | ringBufferF
  | adsrF
  | needsDataF
  | activeF
deriving DecidableEq, Repr

/-- The store order of `StreamingVoice::startVoice` (StreamingVoice.cpp
lines 36-86), in source sequence: metadata and positions, flag resets,
ring-buffer copy, the post-copy position stores, envelope note-on, the
conditional `needsData` store, and `active` last. -/
def startVoiceStoreOrder (streaming : Bool) : List VoiceField :=
  [.currentSampleF, .playingNoteF, .velocityF, .pitchRatioF, .sourcePositionF,
   .readPositionF, .writePositionF, .fileReadPositionF, .endOfFileF, .readErrorF,
   .underrunF, .sustainedByPedalF, .ringBufferF, .writePositionF, .fileReadPositionF,
   .adsrF] ++ (if streaming then [.needsDataF] else []) ++ [.activeF]

/-- Invariant backing the (amended) ring-buffer claim: the audio thread's
published `readPosition` never exceeds the truncated source position, the
occupancy is at most the capacity, and the pitch ratio is nonnegative. -/
def C1Inv (v : Voice) : Prop :=
  v.readPosition ≤ truncToInt v.sourceSamplePosition ∧
  v.writePosition - v.readPosition ≤ ringBufferFrames ∧
  0 ≤ v.pitchRatio

/-- Invariant backing the no-`needsData` claim for non-streaming samples. -/
def C9Inv (v : Voice) : Prop :=
  v.needsData = false ∧ ∀ s, v.currentSample = some s → s.needsStreaming = false

/-- Concrete streaming test sample: 4 silent preload frames, 1000 total
frames (total > preload, so it streams), stereo, root 60, full key and
velocity range. -/
def sampleA : PreloadedSample where
  preloadBuffer := [[0, 0, 0, 0], [0, 0, 0, 0]]
  filePath := "a.wav"
  totalSampleFrames := 1000
  sampleRate := 44100
  numChannels := 2
  rootNote := 60
  lowNote := 0
  highNote := 127
  lowVelocity := 1
  highVelocity := 127
  name := "a"
  preloadSizeFrames := 4

/-- A sample that fits its preload entirely (`needsStreaming` is false). -/
def sampleTiny : PreloadedSample := { sampleA with preloadSizeFrames := 2000 }

/-- An invalid sample (`totalSampleFrames = 0`). -/
def invalidSample : PreloadedSample := { sampleA with totalSampleFrames := 0 }

/-- A zone whose velocity range starts at 64 (for the velocity-conversion
counterexample). -/
def zoneHiVel : PreloadedSample := { sampleA with lowVelocity := 64 }

/-- A catalog holding one sample (previous-instrument state for the
malformed-manifest claim). -/
def pCat : ProcSt where
  preloadedSamples := [sampleA]
  roundRobinCounters := fun _ => 0
  selectedZoneIndex := 0

/-- A catalog holding only the velocity-64..127 zone. -/
def pVel : ProcSt where
  preloadedSamples := [zoneHiVel]
  roundRobinCounters := fun _ => 0
  selectedZoneIndex := 0

/-- Envelope oracle: value 1 and active on every frame (a long attack or a
sustain level of 1). -/
def envConstOne : ℕ → ℚ × Bool := fun _ => (1, true)

/-- A voice that has just started `sampleA` at its root note. -/
def voiceA : Voice := freshVoice.startVoice 1 (some sampleA) 60 1

/-- `voiceA` mid-underrun with 30 fade steps consumed. -/
def voiceFading : Voice :=
  { voiceA with isUnderrunning := true, underrunFadePosition := 30 }

/-- `voiceA` with the underrun fade exhausted. -/
def voiceFadedOut : Voice :=
  { voiceA with isUnderrunning := true, underrunFadePosition := 64 }

/-! ## C10: startVoice rejects null / invalid samples without touching state -/

/-- C10: if `startVoice` is called with a null sample pointer, or with a
sample that is invalid (total frame count ≤ 0 or empty file path), the
call returns immediately and the voice state -- every field -- is
unchanged. -/
theorem c10_invalid_start_is_noop :
    (∀ (pr : ℚ) (note : ℤ) (vel : ℚ) (v : Voice),
        v.startVoice pr none note vel = v) ∧
    (∀ (pr : ℚ) (s : PreloadedSample) (note : ℤ) (vel : ℚ) (v : Voice),
        s.isValid = false → v.startVoice pr (some s) note vel = v) := by
  constructor
  · intro pr note vel v; rfl
  · intro pr s note vel v h
    simp [Voice.startVoice, h]

/-- Witness for C10 at a concrete invalid sample (total frames 0). -/
theorem c10_witness :
    invalidSample.isValid = false ∧
    Voice.startVoice 1 (some invalidSample) 60 1 freshVoice = freshVoice :=
  ⟨by decide, c10_invalid_start_is_noop.2 1 invalidSample 60 1 freshVoice (by decide)⟩

/-! ## C7: start; stop(false) versus a fresh voice -/

/-- C7 counterexample: after `startVoice` on a valid sample followed by
`stopVoice(false)`, the write position is NOT back at its initial value
(`reset()` clears only `active`, `needsData`, the envelope, `playingNote`,
`sustainedByPedal` and `currentSample`), so the claim that every field
equals the fresh-voice value is false. -/
theorem c7_counterexample :
    ((freshVoice.startVoice 1 (some sampleA) 60 1).stopVoice false).writePosition ≠
      freshVoice.writePosition := by decide

/-- C7 amended: `startVoice` on a valid sample followed by
`stopVoice(false)` restores the fields that `reset()` touches (`active`,
`needsData`, envelope, `playingNote`, `sustainedByPedal`,
`currentSample`) and the fields `startVoice` itself zeroes
(`readPosition`, `sourceSamplePosition`, `endOfFile`, `readError`,
underrun state) to their fresh-voice values; `writePosition` and
`fileReadPosition` RETAIN the copied-frame count the start stored, and
`velocity` and `pitchRatio` retain the started velocity and pitch ratio
(they are re-initialized only by the next `startVoice`). -/
theorem c7_amended (pr : ℚ) (s : PreloadedSample) (note : ℤ) (vel : ℚ) (v : Voice)
    (hs : s.isValid = true) :
    ((v.startVoice pr (some s) note vel).stopVoice false).active = freshVoice.active ∧
    ((v.startVoice pr (some s) note vel).stopVoice false).needsData = freshVoice.needsData ∧
    ((v.startVoice pr (some s) note vel).stopVoice false).adsr = freshVoice.adsr ∧
    ((v.startVoice pr (some s) note vel).stopVoice false).playingNote = freshVoice.playingNote ∧
    ((v.startVoice pr (some s) note vel).stopVoice false).sustainedByPedal
      = freshVoice.sustainedByPedal ∧
    ((v.startVoice pr (some s) note vel).stopVoice false).currentSample
      = freshVoice.currentSample ∧
    ((v.startVoice pr (some s) note vel).stopVoice false).readPosition
      = freshVoice.readPosition ∧
    ((v.startVoice pr (some s) note vel).stopVoice false).sourceSamplePosition
      = freshVoice.sourceSamplePosition ∧
    ((v.startVoice pr (some s) note vel).stopVoice false).endOfFile = freshVoice.endOfFile ∧
    ((v.startVoice pr (some s) note vel).stopVoice false).readError = freshVoice.readError ∧
    ((v.startVoice pr (some s) note vel).stopVoice false).isUnderrunning
      = freshVoice.isUnderrunning ∧
    ((v.startVoice pr (some s) note vel).stopVoice false).underrunFadePosition
      = freshVoice.underrunFadePosition ∧
    ((v.startVoice pr (some s) note vel).stopVoice false).writePosition
      = min s.preloadBuffer.numSamples ringBufferFrames ∧
    ((v.startVoice pr (some s) note vel).stopVoice false).fileReadPosition
      = min s.preloadBuffer.numSamples ringBufferFrames ∧
    ((v.startVoice pr (some s) note vel).stopVoice false).velocity = vel ∧
    ((v.startVoice pr (some s) note vel).stopVoice false).pitchRatio = pr := by
  simp [Voice.startVoice, Voice.stopVoice, Voice.reset, hs, freshVoice]

/-- Witness for C7 amended at `sampleA`: one restored field and one
retained field. -/
theorem c7_amended_witness :
    sampleA.isValid = true ∧
    ((freshVoice.startVoice 1 (some sampleA) 60 1).stopVoice false).active
      = freshVoice.active ∧
    ((freshVoice.startVoice 1 (some sampleA) 60 1).stopVoice false).writePosition
      = min sampleA.preloadBuffer.numSamples ringBufferFrames :=
  ⟨by decide, (c7_amended 1 sampleA 60 1 freshVoice (by decide)).1,
   (c7_amended 1 sampleA 60 1 freshVoice
      (by decide)).2.2.2.2.2.2.2.2.2.2.2.2.1⟩

/-! ## C6: malformed manifest handling -/

/-- C6 counterexample: loading a malformed manifest (here: unparsable XML)
over a catalog that holds one sample does NOT retain the previous catalog
-- `loadInstrumentStreaming` clears `preloadedSamples` before validating
the manifest, so the catalog ends empty. -/
theorem c6_counterexample :
    (loadInstrumentStreaming none (fun _ => none) pCat).preloadedSamples ≠
      pCat.preloadedSamples := by
  simp [loadInstrumentStreaming, pCat]

/-- C6 amended: on a malformed manifest (unparsable XML or wrong root
element) the load is aborted with no partial instrument installed, but the
previously loaded catalog is NOT retained: the catalog is left empty and
the round-robin counters are reset. -/
theorem c6_amended (parsed : Option XmlDoc)
    (loadPreloaded : String → Option PreloadedSample) (p : ProcSt)
    (hbad : parsed = none ∨
      ∃ doc, parsed = some doc ∧ doc.rootTag ≠ "SuperSimpleSampler") :
    (loadInstrumentStreaming parsed loadPreloaded p).preloadedSamples = [] ∧
    ∀ m, (loadInstrumentStreaming parsed loadPreloaded p).roundRobinCounters m = 0 := by
  rcases hbad with h | ⟨doc, h, hr⟩
  · subst h; simp [loadInstrumentStreaming]
  · subst h; simp [loadInstrumentStreaming, hr]

/-- Witness for C6 amended: unparsable XML over the one-sample catalog. -/
theorem c6_amended_witness :
    (loadInstrumentStreaming none (fun _ => none) pCat).preloadedSamples = [] ∧
    ∀ m, (loadInstrumentStreaming none (fun _ => none) pCat).roundRobinCounters m = 0 :=
  c6_amended none (fun _ => none) pCat (Or.inl rfl)

/-! ## C2: startVoice postconditions and store order -/

/-- C2: on a valid sample, `startVoice` copies the preload into the ring
buffer from frame 0, sets `writePosition` and `fileReadPosition` to the
number of frames copied, `readPosition` and `sourceSamplePosition` to 0,
sends the envelope `noteOn`, sets `needsData` exactly when the sample
needs streaming (the voice being inactive beforehand means `needsData`
was false, which `reset` and construction both guarantee), and stores
`active = true` strictly after every other store. -/
theorem c2_startVoice_postconditions (pr : ℚ) (s : PreloadedSample) (note : ℤ)
    (vel : ℚ) (v : Voice) (hs : s.isValid = true) (hnd : v.needsData = false) :
    (∀ (ch i : ℕ), ch < (min s.preloadBuffer.numChannels 2).toNat →
        (i : ℤ) < min s.preloadBuffer.numSamples ringBufferFrames →
        (v.startVoice pr (some s) note vel).ringBuffer ch i
          = s.preloadBuffer.sampleAt ch i) ∧
    (v.startVoice pr (some s) note vel).writePosition
      = min s.preloadBuffer.numSamples ringBufferFrames ∧
    (v.startVoice pr (some s) note vel).readPosition = 0 ∧
    (v.startVoice pr (some s) note vel).fileReadPosition
      = min s.preloadBuffer.numSamples ringBufferFrames ∧
    (v.startVoice pr (some s) note vel).sourceSamplePosition = 0 ∧
    (v.startVoice pr (some s) note vel).adsr = AdsrPhase.noteOnPhase ∧
    ((v.startVoice pr (some s) note vel).needsData = true ↔ s.needsStreaming = true) ∧
    (v.startVoice pr (some s) note vel).active = true ∧
    (startVoiceStoreOrder s.needsStreaming).getLast? = some VoiceField.activeF ∧
    VoiceField.activeF ∉ (startVoiceStoreOrder s.needsStreaming).dropLast := by
  refine ⟨?_, ?_, ?_, ?_, ?_, ?_, ?_, ?_, ?_, ?_⟩
  · intro ch i h1 h2
    have hch : (ch : ℤ) < min s.preloadBuffer.numChannels 2 := Int.lt_toNat.mp h1
    have hc1 : (ch : ℤ) < s.preloadBuffer.numChannels :=
      lt_of_lt_of_le hch (min_le_left _ _)
    have hc2 : ch < 2 := by exact_mod_cast lt_of_lt_of_le hch (min_le_right _ _)
    have hi1 : (i : ℤ) < s.preloadBuffer.numSamples := lt_of_lt_of_le h2 (min_le_left _ _)
    have hi2 : (i : ℤ) < ringBufferFrames := lt_of_lt_of_le h2 (min_le_right _ _)
    simp [Voice.startVoice, hs, hc1, hc2, hi1, hi2]
  · simp [Voice.startVoice, hs]
  · simp [Voice.startVoice, hs]
  · simp [Voice.startVoice, hs]
  · simp [Voice.startVoice, hs]
  · simp [Voice.startVoice, hs, adsrNoteOn]
  · cases hb : s.needsStreaming <;> simp [Voice.startVoice, hs, hnd, hb]
  · simp [Voice.startVoice, hs]
  · cases hb : s.needsStreaming <;> decide
  · cases hb : s.needsStreaming <;> decide

/-- Witness for C2 at `sampleA` on a fresh voice: the hypotheses hold and
the rendered conclusions evaluate on the concrete sample. -/
theorem c2_witness :
    sampleA.isValid = true ∧ freshVoice.needsData = false ∧
    ((freshVoice.startVoice 1 (some sampleA) 60 1).writePosition
        = min sampleA.preloadBuffer.numSamples ringBufferFrames ∧
      (freshVoice.startVoice 1 (some sampleA) 60 1).active = true) := by
  refine ⟨by decide, rfl, ?_, ?_⟩
  · exact (c2_startVoice_postconditions 1 sampleA 60 1 freshVoice (by decide) rfl).2.1
  · exact (c2_startVoice_postconditions 1 sampleA 60 1 freshVoice (by decide)
      rfl).2.2.2.2.2.2.2.1

/-! ## C8: velocity conversion on note-on -/

unseal Rat.add Rat.mul Rat.inv Rat.sub in
/-- C8 counterexample: the code converts the float velocity with
`static_cast<int>(velocity * 127.0f)` -- truncation, not rounding (both
`0.5` and `0.5 * 127 = 63.5` are exact in binary32, so the rational
computation is the float computation).  At velocity `0.5` the code gets
63 while `round` gives 64; against a zone with `loVel = 64` the code
ignores the event (round-robin counter stays 0, the voice stays
inactive) although the claim's conversion would match and start a voice. -/
theorem c8_counterexample :
    truncToInt ((1 / 2 : ℚ) * 127) = 63 ∧
    specRound ((1 / 2 : ℚ) * 127) = 64 ∧
    zoneHiVel.matchesZone 60 64 = true ∧
    (handleNoteOnStreaming 1 16 60 (1 / 2) pVel [freshVoice]).1.roundRobinCounters 60
      = 0 ∧
    ((handleNoteOnStreaming 1 16 60 (1 / 2) pVel [freshVoice]).2.getD 0
        freshVoice).active = false ∧
    (specNoteOnRounded 1 16 60 (1 / 2) pVel [freshVoice]).1.roundRobinCounters 60
      = 1 ∧
    ((specNoteOnRounded 1 16 60 (1 / 2) pVel [freshVoice]).2.getD 0
        freshVoice).active = true := by
  decide

/-- C8 amended: the float velocity is converted by TRUNCATION,
`vel = trunc(vel_float * 127)`; this integer is the one used for zone
velocity matching, and if no zone matches `(note, vel)` the event is
ignored (state returned unchanged); when some zone matches, the event is
acted on (the note's round-robin counter advances). -/
theorem c8_amended (pr : ℚ) (poly : ℤ) (note : ℤ) (velFloat : ℚ) (p : ProcSt)
    (voices : List Voice) :
    handleNoteOnStreaming pr poly note velFloat p voices
      = noteOnWithIntVel pr poly note velFloat (truncToInt (velFloat * 127)) p voices ∧
    (findMatchingPreloadedSamples p.preloadedSamples note (truncToInt (velFloat * 127))
        = [] →
      handleNoteOnStreaming pr poly note velFloat p voices = (p, voices)) ∧
    (findMatchingPreloadedSamples p.preloadedSamples note (truncToInt (velFloat * 127))
        ≠ [] →
      (handleNoteOnStreaming pr poly note velFloat p voices).1.roundRobinCounters note
        = p.roundRobinCounters note + 1) := by
  refine ⟨rfl, ?_, ?_⟩
  · intro h
    simp [handleNoteOnStreaming, noteOnWithIntVel, h]
  · intro h
    simp [handleNoteOnStreaming, noteOnWithIntVel, h]

unseal Rat.add Rat.mul Rat.inv Rat.sub in
/-- Witness for C8 amended: at velocity 1/2 against the 64..127 zone the
event is ignored; at velocity 1 against the full-range catalog the
counter advances. -/
theorem c8_amended_witness :
    handleNoteOnStreaming 1 16 60 (1 / 2) pVel [freshVoice] = (pVel, [freshVoice]) ∧
    (handleNoteOnStreaming 1 16 60 1 pCat [freshVoice]).1.roundRobinCounters 60
      = pCat.roundRobinCounters 60 + 1 :=
  ⟨(c8_amended 1 16 60 (1 / 2) pVel [freshVoice]).2.1 (by decide),
   (c8_amended 1 16 60 1 pCat [freshVoice]).2.2 (by decide)⟩

/-! ## C4: per-note round-robin -/

/-- C4: for a matching note-on, the chosen catalog index is
`matches[counter mod matches.len]` (the counter read before the event),
the note's counter advances by exactly one, other notes' counters are
untouched, and (re)loading an instrument resets every counter to 0, so
the next matching note-on chooses `matches[0]`. -/
theorem c4_round_robin (pr : ℚ) (poly : ℤ) (note : ℤ) (velFloat : ℚ) (p : ProcSt)
    (voices : List Voice) (ms : List ℕ) (c : ℕ)
    (hms : ms = findMatchingPreloadedSamples p.preloadedSamples note
      (truncToInt (velFloat * 127)))
    (hc : c = p.roundRobinCounters note)
    (hm : ms ≠ []) :
    (handleNoteOnStreaming pr poly note velFloat p voices).2
      = allocateAndStart
          (Voice.startVoice pr
            (some (p.preloadedSamples.getD (ms.getD (c % ms.length) 0)
              defaultPreloadedSample)) note velFloat)
          voices ((min poly maxStreamingVoices).toNat) ∧
    (handleNoteOnStreaming pr poly note velFloat p voices).1.roundRobinCounters note
      = c + 1 ∧
    (∀ m, m ≠ note →
      (handleNoteOnStreaming pr poly note velFloat p voices).1.roundRobinCounters m
        = p.roundRobinCounters m) ∧
    (∀ (parsed : Option XmlDoc) (loadPreloaded : String → Option PreloadedSample)
        (q : ProcSt) (m : ℤ),
      (loadInstrumentStreaming parsed loadPreloaded q).roundRobinCounters m = 0) ∧
    (c = 0 →
      (handleNoteOnStreaming pr poly note velFloat p voices).2
        = allocateAndStart
            (Voice.startVoice pr
              (some (p.preloadedSamples.getD (ms.getD 0 0) defaultPreloadedSample))
              note velFloat)
            voices ((min poly maxStreamingVoices).toNat)) := by
  subst hms hc
  refine ⟨?_, ?_, ?_, ?_, ?_⟩
  · simp [handleNoteOnStreaming, noteOnWithIntVel, hm]
  · simp [handleNoteOnStreaming, noteOnWithIntVel, hm]
  · intro m hmn
    simp [handleNoteOnStreaming, noteOnWithIntVel, hm, hmn]
  · intro parsed loadPreloaded q m
    cases parsed with
    | none => simp [loadInstrumentStreaming]
    | some doc =>
      by_cases hr : doc.rootTag = "SuperSimpleSampler" <;>
        simp [loadInstrumentStreaming, hr]
  · intro h0
    simp [handleNoteOnStreaming, noteOnWithIntVel, hm, h0]

unseal Rat.add Rat.mul Rat.inv Rat.sub in
/-- Witness for C4: one-sample catalog, counter 0, note 60 at velocity 1. -/
theorem c4_witness :
    (handleNoteOnStreaming 1 16 60 1 pCat [freshVoice]).1.roundRobinCounters 60
      = 0 + 1 :=
  (c4_round_robin 1 16 60 1 pCat [freshVoice] [0] 0 (by decide) rfl
    (by decide)).2.1

/-! ## Helper lemmas about the per-frame render step -/

@[simp] theorem reset_needsData (v : Voice) : v.reset.needsData = false := rfl
@[simp] theorem reset_currentSample (v : Voice) : v.reset.currentSample = none := rfl
@[simp] theorem reset_active (v : Voice) : v.reset.active = false := rfl
@[simp] theorem reset_readPosition (v : Voice) : v.reset.readPosition = v.readPosition := rfl
@[simp] theorem reset_writePosition (v : Voice) :
    v.reset.writePosition = v.writePosition := rfl
@[simp] theorem reset_fileReadPosition (v : Voice) :
    v.reset.fileReadPosition = v.fileReadPosition := rfl
@[simp] theorem reset_sourceSamplePosition (v : Voice) :
    v.reset.sourceSamplePosition = v.sourceSamplePosition := rfl
@[simp] theorem reset_pitchRatio (v : Voice) : v.reset.pitchRatio = v.pitchRatio := rfl
@[simp] theorem reset_endOfFile (v : Voice) : v.reset.endOfFile = v.endOfFile := rfl
@[simp] theorem reset_readError (v : Voice) : v.reset.readError = v.readError := rfl

@[simp] theorem underrunCheck_needsData (st : Bool) (w r : ℤ) (v : Voice) :
    (underrunCheck st w r v).needsData = v.needsData := by
  unfold underrunCheck; split <;> rfl
@[simp] theorem underrunCheck_currentSample (st : Bool) (w r : ℤ) (v : Voice) :
    (underrunCheck st w r v).currentSample = v.currentSample := by
  unfold underrunCheck; split <;> rfl
@[simp] theorem underrunCheck_active (st : Bool) (w r : ℤ) (v : Voice) :
    (underrunCheck st w r v).active = v.active := by
  unfold underrunCheck; split <;> rfl
@[simp] theorem underrunCheck_readPosition (st : Bool) (w r : ℤ) (v : Voice) :
    (underrunCheck st w r v).readPosition = v.readPosition := by
  unfold underrunCheck; split <;> rfl
@[simp] theorem underrunCheck_writePosition (st : Bool) (w r : ℤ) (v : Voice) :
    (underrunCheck st w r v).writePosition = v.writePosition := by
  unfold underrunCheck; split <;> rfl
@[simp] theorem underrunCheck_sourceSamplePosition (st : Bool) (w r : ℤ) (v : Voice) :
    (underrunCheck st w r v).sourceSamplePosition = v.sourceSamplePosition := by
  unfold underrunCheck; split <;> rfl
@[simp] theorem underrunCheck_pitchRatio (st : Bool) (w r : ℤ) (v : Voice) :
    (underrunCheck st w r v).pitchRatio = v.pitchRatio := by
  unfold underrunCheck; split <;> rfl
@[simp] theorem underrunCheck_endOfFile (st : Bool) (w r : ℤ) (v : Voice) :
    (underrunCheck st w r v).endOfFile = v.endOfFile := by
  unfold underrunCheck; split <;> rfl

@[simp] theorem underrunAdvance_needsData (v : Voice) :
    (underrunAdvance v).needsData = v.needsData := by
  unfold underrunAdvance; split <;> rfl
@[simp] theorem underrunAdvance_currentSample (v : Voice) :
    (underrunAdvance v).currentSample = v.currentSample := by
  unfold underrunAdvance; split <;> rfl
@[simp] theorem underrunAdvance_active (v : Voice) :
    (underrunAdvance v).active = v.active := by
  unfold underrunAdvance; split <;> rfl
@[simp] theorem underrunAdvance_readPosition (v : Voice) :
    (underrunAdvance v).readPosition = v.readPosition := by
  unfold underrunAdvance; split <;> rfl
@[simp] theorem underrunAdvance_writePosition (v : Voice) :
    (underrunAdvance v).writePosition = v.writePosition := by
  unfold underrunAdvance; split <;> rfl
@[simp] theorem underrunAdvance_sourceSamplePosition (v : Voice) :
    (underrunAdvance v).sourceSamplePosition = v.sourceSamplePosition := by
  unfold underrunAdvance; split <;> rfl
@[simp] theorem underrunAdvance_pitchRatio (v : Voice) :
    (underrunAdvance v).pitchRatio = v.pitchRatio := by
  unfold underrunAdvance; split <;> rfl
@[simp] theorem underrunAdvance_endOfFile (v : Voice) :
    (underrunAdvance v).endOfFile = v.endOfFile := by
  unfold underrunAdvance; split <;> rfl

/-- Fields of the voice after an early-exit (`reset`-and-return) frame. -/
theorem renderFrame_inl {env : ℕ → ℚ × Bool} {total : ℤ} {streaming : Bool}
    {preload : AudioBuf} {nch cWP : ℤ} {idx : ℕ} {v : Voice} {cRP : ℤ} {v2 : Voice}
    (h : renderFrame env total streaming preload nch cWP idx v cRP = Sum.inl v2) :
    v2.needsData = false ∧ v2.currentSample = none ∧ v2.active = false ∧
    v2.readPosition = v.readPosition ∧ v2.writePosition = v.writePosition ∧
    v2.sourceSamplePosition = v.sourceSamplePosition ∧ v2.pitchRatio = v.pitchRatio := by
  unfold renderFrame at h
  by_cases h1 : (total : ℚ) ≤ v.sourceSamplePosition
  · rw [if_pos h1] at h
    injection h with h; subst h; simp
  · rw [if_neg h1] at h
    by_cases h2 : (env idx).2 = false
    · rw [if_pos h2] at h
      injection h with h; subst h; simp
    · rw [if_neg h2] at h
      by_cases h3 : (underrunCheck streaming cWP cRP v).isUnderrunning = true ∧
          underrunFadeValue (underrunCheck streaming cWP cRP v) ≤ 0
      · rw [if_pos h3] at h
        injection h with h; subst h; simp
      · rw [if_neg h3] at h
        simp at h

/-- Fields of the voice after a completed frame. -/
theorem renderFrame_inr {env : ℕ → ℚ × Bool} {total : ℤ} {streaming : Bool}
    {preload : AudioBuf} {nch cWP : ℤ} {idx : ℕ} {v : Voice} {cRP : ℤ}
    {v2 : Voice} {c2 : ℤ} {out : FrameOut}
    (h : renderFrame env total streaming preload nch cWP idx v cRP
      = Sum.inr (v2, c2, out)) :
    v2.needsData = v.needsData ∧ v2.currentSample = v.currentSample ∧
    v2.active = v.active ∧ v2.readPosition = v.readPosition ∧
    v2.writePosition = v.writePosition ∧
    v2.sourceSamplePosition = v.sourceSamplePosition + v.pitchRatio ∧
    v2.pitchRatio = v.pitchRatio := by
  unfold renderFrame at h
  by_cases h1 : (total : ℚ) ≤ v.sourceSamplePosition
  · rw [if_pos h1] at h; simp at h
  · rw [if_neg h1] at h
    by_cases h2 : (env idx).2 = false
    · rw [if_pos h2] at h; simp at h
    · rw [if_neg h2] at h
      by_cases h3 : (underrunCheck streaming cWP cRP v).isUnderrunning = true ∧
          underrunFadeValue (underrunCheck streaming cWP cRP v) ≤ 0
      · rw [if_pos h3] at h; simp at h
      · rw [if_neg h3] at h
        simp only [Sum.inr.injEq, Prod.mk.injEq] at h
        obtain ⟨hv, _, _⟩ := h
        subst hv
        simp

/-- Across a whole per-frame loop the audio thread leaves `readPosition`
and `writePosition` untouched (it publishes `readPosition` only after the
loop), keeps the pitch ratio, moves the source position forward (for a
nonnegative pitch ratio), and can only clear `needsData` / drop the
current sample (via `reset`), never set them. -/
theorem renderLoop_fields (env : ℕ → ℚ × Bool) (total : ℤ) (streaming : Bool)
    (preload : AudioBuf) (nch cWP : ℤ) :
    ∀ (n idx : ℕ) (v : Voice) (cRP : ℤ),
    (renderLoop env total streaming preload nch cWP n idx v cRP).1.readPosition
        = v.readPosition ∧
    (renderLoop env total streaming preload nch cWP n idx v cRP).1.writePosition
        = v.writePosition ∧
    (renderLoop env total streaming preload nch cWP n idx v cRP).1.pitchRatio
        = v.pitchRatio ∧
    (0 ≤ v.pitchRatio →
      v.sourceSamplePosition ≤
        (renderLoop env total streaming preload nch cWP n idx v cRP).1.sourceSamplePosition) ∧
    ((renderLoop env total streaming preload nch cWP n idx v cRP).1.needsData
        = v.needsData ∨
      (renderLoop env total streaming preload nch cWP n idx v cRP).1.needsData = false) ∧
    ((renderLoop env total streaming preload nch cWP n idx v cRP).1.currentSample
        = v.currentSample ∨
      (renderLoop env total streaming preload nch cWP n idx v cRP).1.currentSample
        = none) := by
  intro n
  induction n with
  | zero =>
    intro idx v cRP
    simp [renderLoop]
  | succ m ih =>
    intro idx v cRP
    cases hf : renderFrame env total streaming preload nch cWP idx v cRP with
    | inl v2 =>
      obtain ⟨a1, a2, a3, a4, a5, a6, a7⟩ := renderFrame_inl hf
      unfold renderLoop
      rw [hf]
      exact ⟨a4, a5, a7, fun _ => le_of_eq a6.symm, Or.inr a1, Or.inr a2⟩
    | inr t =>
      rcases t with ⟨v2, c2, out⟩
      obtain ⟨a1, a2, a3, a4, a5, a6, a7⟩ := renderFrame_inr hf
      obtain ⟨b1, b2, b3, b4, b5, b6⟩ := ih (idx + 1) v2 c2
      unfold renderLoop
      rw [hf]
      refine ⟨by simpa [a4] using b1, by simpa [a5] using b2, by simpa [a7] using b3,
        ?_, ?_, ?_⟩
      · intro hpr
        have h1 : v.sourceSamplePosition ≤ v2.sourceSamplePosition := by
          rw [a6]; linarith
        have h2 := b4 (by rw [a7]; exact hpr)
        exact le_trans h1 h2
      · rcases b5 with hb | hb
        · rw [a1] at hb; exact Or.inl hb
        · exact Or.inr hb
      · rcases b6 with hb | hb
        · rw [a2] at hb; exact Or.inl hb
        · exact Or.inr hb

@[simp] theorem checkAndRequestData_readPosition (v : Voice) :
    v.checkAndRequestData.readPosition = v.readPosition := by
  unfold Voice.checkAndRequestData
  repeat' split
  all_goals rfl

@[simp] theorem checkAndRequestData_writePosition (v : Voice) :
    v.checkAndRequestData.writePosition = v.writePosition := by
  unfold Voice.checkAndRequestData
  repeat' split
  all_goals rfl

@[simp] theorem checkAndRequestData_sourceSamplePosition (v : Voice) :
    v.checkAndRequestData.sourceSamplePosition = v.sourceSamplePosition := by
  unfold Voice.checkAndRequestData
  repeat' split
  all_goals rfl

@[simp] theorem checkAndRequestData_pitchRatio (v : Voice) :
    v.checkAndRequestData.pitchRatio = v.pitchRatio := by
  unfold Voice.checkAndRequestData
  repeat' split
  all_goals rfl

/-- C++ truncation toward zero is monotone. -/
theorem truncToInt_mono {a b : ℚ} (h : a ≤ b) : truncToInt a ≤ truncToInt b := by
  unfold truncToInt
  by_cases h1 : (0 : ℚ) ≤ a
  · rw [if_pos h1, if_pos (h1.trans h)]
    exact Int.floor_mono h
  · rw [if_neg h1]
    by_cases h2 : (0 : ℚ) ≤ b
    · rw [if_pos h2]
      have ha : ⌈a⌉ ≤ 0 := Int.ceil_le.mpr (by exact_mod_cast le_of_not_le h1)
      have hb : 0 ≤ ⌊b⌋ := Int.le_floor.mpr (by exact_mod_cast h2)
      omega
    · rw [if_neg h2]
      exact Int.ceil_mono h

/-- One audio-thread block keeps `C1Inv`. -/
theorem renderNextBlock_C1Inv (env : ℕ → ℚ × Bool) (n : ℕ) {v : Voice}
    (h : C1Inv v) : C1Inv (v.renderNextBlock env n).1 := by
  obtain ⟨hrd, hwr, hpr⟩ := h
  unfold Voice.renderNextBlock
  by_cases ha : v.active = false
  · rw [if_pos ha]; exact ⟨hrd, hwr, hpr⟩
  · rw [if_neg ha]
    split
    · exact ⟨hrd, hwr, hpr⟩
    · rename_i s hcs
      split
      rename_i vEnd cF completed outs hr
      obtain ⟨f1, f2, f3, f4, f5, f6⟩ := renderLoop_fields env s.totalSampleFrames
        s.needsStreaming s.preloadBuffer s.numChannels v.writePosition n 0 v
        v.readPosition
      rw [hr] at f1 f2 f3 f4 f5 f6
      simp only at f1 f2 f3 f4 f5 f6
      have hsrc : v.sourceSamplePosition ≤ vEnd.sourceSamplePosition := f4 hpr
      have htr : v.readPosition ≤ truncToInt vEnd.sourceSamplePosition :=
        le_trans hrd (truncToInt_mono hsrc)
      by_cases hc : (completed && s.needsStreaming) = true
      · rw [if_pos hc]
        refine ⟨?_, ?_, ?_⟩
        · simp
        · simp only [checkAndRequestData_writePosition, checkAndRequestData_readPosition]
          show vEnd.writePosition - truncToInt vEnd.sourceSamplePosition ≤ ringBufferFrames
          rw [f2]
          omega
        · simp [f3, hpr]
      · rw [if_neg hc]
        exact ⟨by rw [f1]; exact htr, by rw [f1, f2]; omega, by rw [f3]; exact hpr⟩

/-- One audio-thread block keeps `C9Inv`. -/
theorem renderNextBlock_C9Inv (env : ℕ → ℚ × Bool) (n : ℕ) {v : Voice}
    (h : C9Inv v) : C9Inv (v.renderNextBlock env n).1 := by
  obtain ⟨hnd, hcs'⟩ := h
  unfold Voice.renderNextBlock
  by_cases ha : v.active = false
  · rw [if_pos ha]; exact ⟨hnd, hcs'⟩
  · rw [if_neg ha]
    split
    · exact ⟨hnd, hcs'⟩
    · rename_i s hcs
      have hns : s.needsStreaming = false := hcs' s hcs
      split
      rename_i vEnd cF completed outs hr
      obtain ⟨f1, f2, f3, f4, f5, f6⟩ := renderLoop_fields env s.totalSampleFrames
        s.needsStreaming s.preloadBuffer s.numChannels v.writePosition n 0 v
        v.readPosition
      rw [hr] at f5 f6
      simp only at f5 f6
      rw [if_neg (by simp [hns])]
      constructor
      · rcases f5 with h5 | h5
        · rw [h5]; exact hnd
        · exact h5
      · intro s2 hs2
        rcases f6 with h6 | h6
        · rw [h6, hcs] at hs2
          cases hs2; exact hns
        · rw [h6] at hs2; cases hs2

/-- The refill loop touches only `writePosition` (and the stored frames,
`fileReadPosition`, `readError`): the audio-thread fields are untouched,
and every chunk it writes fits in the space left, so the occupancy bound
is kept. -/
theorem fillLoop_fields (readOk : ℕ → Bool) (fileData : ℕ → ℤ → ℚ) (total nch : ℤ) :
    ∀ (fuel k : ℕ) (filePos : ℤ) (v : Voice),
    (fillLoop readOk fileData total nch fuel k filePos v).1.readPosition
        = v.readPosition ∧
    (fillLoop readOk fileData total nch fuel k filePos v).1.sourceSamplePosition
        = v.sourceSamplePosition ∧
    (fillLoop readOk fileData total nch fuel k filePos v).1.pitchRatio = v.pitchRatio ∧
    (v.writePosition - v.readPosition ≤ ringBufferFrames →
      (fillLoop readOk fileData total nch fuel k filePos v).1.writePosition -
        (fillLoop readOk fileData total nch fuel k filePos v).1.readPosition
          ≤ ringBufferFrames) := by
  intro fuel
  induction fuel with
  | zero =>
    intro k filePos v
    simp [fillLoop]
  | succ m ih =>
    intro k filePos v
    unfold fillLoop
    by_cases h1 : diskReadFrames ≤ ringBufferFrames - (v.writePosition - v.readPosition)
        ∧ filePos < total
    · rw [if_pos h1]
      by_cases h2 : min (min diskReadFrames (total - filePos))
          (ringBufferFrames - (v.writePosition - v.readPosition)) ≤ 0
      · rw [if_pos h2]
        exact ⟨rfl, rfl, rfl, fun hw => hw⟩
      · rw [if_neg h2]
        by_cases h3 : readOk k = false
        · rw [if_pos h3]
          exact ⟨rfl, rfl, rfl, fun hw => hw⟩
        · rw [if_neg h3]
          obtain ⟨g1, g2, g3, g4⟩ := ih (k + 1)
            (filePos + min (min diskReadFrames (total - filePos))
              (ringBufferFrames - (v.writePosition - v.readPosition)))
            { v with
              ringBuffer := ringWriteChunk v.ringBuffer
                (v.writePosition.tmod ringBufferFrames)
                (min (min diskReadFrames (total - filePos))
                  (ringBufferFrames - (v.writePosition - v.readPosition)))
                (min 2 nch)
                (decide (min 2 nch = 1 ∧ nch < 2))
                (fun ch f => fileData ch (filePos + f))
              writePosition := v.writePosition +
                min (min diskReadFrames (total - filePos))
                  (ringBufferFrames - (v.writePosition - v.readPosition))
              fileReadPosition := filePos +
                min (min diskReadFrames (total - filePos))
                  (ringBufferFrames - (v.writePosition - v.readPosition)) }
          refine ⟨by rw [g1], by rw [g2], by rw [g3], ?_⟩
          intro hw
          refine le_trans (le_of_eq ?_) (g4 ?_)
          · rfl
          · show v.writePosition +
              min (min diskReadFrames (total - filePos))
                (ringBufferFrames - (v.writePosition - v.readPosition)) -
              v.readPosition ≤ ringBufferFrames
            have hmr : min (min diskReadFrames (total - filePos))
                (ringBufferFrames - (v.writePosition - v.readPosition)) ≤
                ringBufferFrames - (v.writePosition - v.readPosition) :=
              min_le_right _ _
            omega
    · rw [if_neg h1]
      exact ⟨rfl, rfl, rfl, fun hw => hw⟩

/-- A whole disk-thread refill call keeps `C1Inv`. -/
theorem fillVoiceBuffer_C1Inv (openOk : Bool) (readerLen : ℤ) (readOk : ℕ → Bool)
    (fileData : ℕ → ℤ → ℚ) {v : Voice} (h : C1Inv v) :
    C1Inv (fillVoiceBuffer openOk readerLen readOk fileData v) := by
  obtain ⟨hrd, hwr, hpr⟩ := h
  unfold fillVoiceBuffer
  split
  · exact ⟨hrd, hwr, hpr⟩
  · rename_i s hcs
    by_cases h1 : s.isValid = false
    · rw [if_pos h1]; exact ⟨hrd, hwr, hpr⟩
    · rw [if_neg h1]
      by_cases h2 : openOk = false
      · rw [if_pos h2]; exact ⟨hrd, hwr, hpr⟩
      · rw [if_neg h2]
        by_cases h3 : readerLen ≤ v.fileReadPosition
        · rw [if_pos h3]; exact ⟨hrd, hwr, hpr⟩
        · rw [if_neg h3]
          by_cases h4 : ringBufferFrames - (v.writePosition - v.readPosition)
              < diskReadFrames
          · rw [if_pos h4]; exact ⟨hrd, hwr, hpr⟩
          · rw [if_neg h4]
            obtain ⟨g1, g2, g3, g4⟩ := fillLoop_fields readOk fileData readerLen
              s.numChannels (readerLen - v.fileReadPosition).toNat 0
              v.fileReadPosition v
            have g4' := g4 hwr
            by_cases h5 : readerLen ≤ (fillLoop readOk fileData readerLen s.numChannels
                (readerLen - v.fileReadPosition).toNat 0 v.fileReadPosition v).2
            · rw [if_pos h5]
              exact ⟨by rw [g1, g2]; exact hrd, g4', by rw [g3]; exact hpr⟩
            · rw [if_neg h5]
              exact ⟨by rw [g1, g2]; exact hrd, g4', by rw [g3]; exact hpr⟩

/-- Any interleaving step keeps `C1Inv`. -/
theorem applyStep_C1Inv (st : Step) {v : Voice} (h : C1Inv v) :
    C1Inv (applyStep st v) := by
  cases st with
  | render c => exact renderNextBlock_C1Inv c.env c.numSamples h
  | fill c => exact fillVoiceBuffer_C1Inv c.openOk c.readerLen c.readOk c.fileData h

/-- Any interleaving keeps `C1Inv`. -/
theorem runSteps_C1Inv (steps : List Step) {v : Voice} (h : C1Inv v) :
    C1Inv (runSteps steps v) := by
  induction steps generalizing v with
  | nil => exact h
  | cons st rest ih => exact ih (applyStep_C1Inv st h)

/-- `startVoice` on a valid sample establishes `C1Inv` (for a nonnegative
pitch ratio, which every note/rate combination yields). -/
theorem startVoice_C1Inv (pr : ℚ) (s : PreloadedSample) (note : ℤ) (vel : ℚ)
    (v : Voice) (hs : s.isValid = true) (hpr : 0 ≤ pr) :
    C1Inv (v.startVoice pr (some s) note vel) := by
  refine ⟨?_, ?_, ?_⟩
  · simp [Voice.startVoice, hs, truncToInt]
  · simp only [Voice.startVoice, hs]
    simp only [Bool.true_eq_false, if_false]
    show min s.preloadBuffer.numSamples ringBufferFrames - 0 ≤ ringBufferFrames
    have := min_le_right s.preloadBuffer.numSamples ringBufferFrames
    omega
  · simp [Voice.startVoice, hs, hpr]

/-! ## C1: ring-buffer position bounds over all interleavings -/

unseal Rat.add Rat.mul Rat.inv Rat.sub in
/-- C1 counterexample: start a streaming sample (4 preload frames, pitch
ratio 1) and render one 8-frame block with the disk thread never running.
The underrun fade keeps rendering while the source position advances past
the written frames, and the block publishes `read_pos = 8 > write_pos = 4`:
`write_pos - read_pos = -4 < 0`, violating the claimed lower bound. -/
theorem c1_counterexample :
    (runSteps [Step.render ⟨8, envConstOne⟩] voiceA).writePosition -
      (runSteps [Step.render ⟨8, envConstOne⟩] voiceA).readPosition < 0 := by
  decide

/-- C1 amended: over every interleaving of audio-thread `renderNextBlock`
calls and disk-thread `fillVoiceBuffer` calls after `startVoice`, the
upper bound `write_pos - read_pos ≤ RING = 32768` always holds; the lower
bound `0 ≤ write_pos - read_pos` does NOT hold in general -- during an
underrun fade (or a large pitch-ratio overshoot) the audio thread may
publish a `read_pos` beyond `write_pos`. -/
theorem c1_amended (pr : ℚ) (s : PreloadedSample) (note : ℤ) (vel : ℚ) (v0 : Voice)
    (steps : List Step) (hs : s.isValid = true) (hpr : 0 ≤ pr) :
    (runSteps steps (v0.startVoice pr (some s) note vel)).writePosition -
      (runSteps steps (v0.startVoice pr (some s) note vel)).readPosition
      ≤ ringBufferFrames :=
  (runSteps_C1Inv steps (startVoice_C1Inv pr s note vel v0 hs hpr)).2.1

/-- Witness for C1 amended: the concrete underrun interleaving (where even
the lower bound fails) still satisfies the upper bound. -/
theorem c1_amended_witness :
    (runSteps [Step.render ⟨8, envConstOne⟩]
        (freshVoice.startVoice 1 (some sampleA) 60 1)).writePosition -
      (runSteps [Step.render ⟨8, envConstOne⟩]
        (freshVoice.startVoice 1 (some sampleA) 60 1)).readPosition
      ≤ ringBufferFrames :=
  c1_amended 1 sampleA 60 1 freshVoice [Step.render ⟨8, envConstOne⟩]
    (by decide) (by decide)

/-! ## C9: non-streaming samples never signal needsData -/

/-- C9: for a valid sample whose total frame count is at most its preload
frame count (`needsStreaming()` false), a voice started on it never has
`needsData = true` through any sequence of renderNextBlock calls (the
voice starts from the inactive state, in which `needsData` is false --
guaranteed by construction and by `reset`). -/
theorem c9_no_needsData (pr : ℚ) (s : PreloadedSample) (note : ℤ) (vel : ℚ)
    (v0 : Voice) (calls : List RenderCall) (hs : s.isValid = true)
    (hns : s.needsStreaming = false) (hnd : v0.needsData = false) :
    (runRenders calls (v0.startVoice pr (some s) note vel)).needsData = false := by
  have hstart : C9Inv (v0.startVoice pr (some s) note vel) := by
    constructor
    · simp [Voice.startVoice, hs, hns, hnd]
    · intro s2 hs2
      simp only [Voice.startVoice, hs] at hs2
      simp only [Bool.true_eq_false, if_false] at hs2
      cases hs2
      exact hns
  suffices h : C9Inv (runRenders calls (v0.startVoice pr (some s) note vel)) from h.1
  revert hstart
  generalize v0.startVoice pr (some s) note vel = w
  intro hw
  induction calls generalizing w with
  | nil => exact hw
  | cons c rest ih => exact ih _ (renderNextBlock_C9Inv c.env c.numSamples hw)

/-- Witness for C9: the preload-only sample, fresh voice, two blocks. -/
theorem c9_witness :
    (runRenders [⟨8, envConstOne⟩, ⟨8, envConstOne⟩]
      (freshVoice.startVoice 1 (some sampleTiny) 60 1)).needsData = false :=
  c9_no_needsData 1 sampleTiny 60 1 freshVoice [⟨8, envConstOne⟩, ⟨8, envConstOne⟩]
    (by decide) (by decide) rfl

/-! ## C5: voice allocation -/

/-- The scan loop finds exactly the least free slot in range. -/
theorem findFreeVoice_some (voices : List Voice) :
    ∀ (rem i target : ℕ), i ≤ target → target < i + rem →
    (voices.getD target freshVoice).active = false →
    (∀ j, i ≤ j → j < target → (voices.getD j freshVoice).active = true) →
    findFreeVoice voices rem i = some target := by
  intro rem
  induction rem with
  | zero =>
    intro i t h1 h2 _ _
    omega
  | succ m ih =>
    intro i t h1 h2 hin hprev
    by_cases hi : i = t
    · subst hi
      simp only [findFreeVoice]
      rw [if_pos hin]
    · have hiact : (voices.getD i freshVoice).active = true :=
        hprev i le_rfl (by omega)
      simp only [findFreeVoice, hiact]
      rw [if_neg (by simp)]
      exact ih (i + 1) t (by omega) (by omega) hin
        (fun j hj1 hj2 => hprev j (by omega) hj2)

/-- When every slot in range is busy, the scan finds nothing. -/
theorem findFreeVoice_none (voices : List Voice) :
    ∀ (rem i : ℕ),
    (∀ j, i ≤ j → j < i + rem → (voices.getD j freshVoice).active = true) →
    findFreeVoice voices rem i = none := by
  intro rem
  induction rem with
  | zero => intro i _; rfl
  | succ m ih =>
    intro i h
    have hiact : (voices.getD i freshVoice).active = true := h i le_rfl (by omega)
    simp only [findFreeVoice, hiact]
    rw [if_neg (by simp)]
    exact ih (i + 1) (fun j hj1 hj2 => h j (by omega) (by omega))

/-- C5: on a matching note-on the dispatcher scans slots
`0 .. min(polyphony, 64) - 1` in order and starts the chosen sample on the
FIRST inactive slot, leaving all other slots untouched; if every slot in
that range is active it steals slot 0 -- `stopVoice(false)` then
`startVoice` (so with polyphony 1 and slot 0 busy, a second note-on
reuses slot 0 via the steal). -/
theorem c5_voice_allocation :
    (∀ (startOne : Voice → Voice) (voices : List Voice) (L i : ℕ),
      i < L → (voices.getD i freshVoice).active = false →
      (∀ j, j < i → (voices.getD j freshVoice).active = true) →
      allocateAndStart startOne voices L
        = voices.set i (startOne (voices.getD i freshVoice))) ∧
    (∀ (startOne : Voice → Voice) (voices : List Voice) (L : ℕ),
      (∀ j, j < L → (voices.getD j freshVoice).active = true) →
      allocateAndStart startOne voices L
        = voices.set 0 (startOne ((voices.getD 0 freshVoice).stopVoice false))) ∧
    (∀ (pr : ℚ) (poly : ℤ) (note : ℤ) (velFloat : ℚ) (p : ProcSt)
        (voices : List Voice) (ms : List ℕ),
      ms = findMatchingPreloadedSamples p.preloadedSamples note
        (truncToInt (velFloat * 127)) →
      ms ≠ [] →
      (handleNoteOnStreaming pr poly note velFloat p voices).2
        = allocateAndStart
            (Voice.startVoice pr
              (some (p.preloadedSamples.getD
                (ms.getD (p.roundRobinCounters note % ms.length) 0)
                defaultPreloadedSample)) note velFloat)
            voices ((min poly maxStreamingVoices).toNat)) := by
  refine ⟨?_, ?_, ?_⟩
  · intro startOne voices L i hiL hin hprev
    unfold allocateAndStart
    rw [findFreeVoice_some voices L 0 i (Nat.zero_le i) (by omega) hin
      (fun j _ hj => hprev j hj)]
  · intro startOne voices L hall
    unfold allocateAndStart
    rw [findFreeVoice_none voices L 0 (fun j _ hj => hall j (by omega))]
  · intro pr poly note velFloat p voices ms hms hm
    subst hms
    simp [handleNoteOnStreaming, noteOnWithIntVel, hm]

unseal Rat.add Rat.mul Rat.inv Rat.sub in
/-- Witness for C5: polyphony 1 with slot 0 already playing -- the second
note-on steals slot 0. -/
theorem c5_witness :
    (handleNoteOnStreaming 1 1 60 1 pCat [voiceA]).2
      = [Voice.startVoice 1 (some sampleA) 60 1 (voiceA.stopVoice false)] := by
  have h3 := c5_voice_allocation.2.2 1 1 60 1 pCat [voiceA] [0] (by decide) (by decide)
  have h2 := c5_voice_allocation.2.1
    (Voice.startVoice 1
      (some (pCat.preloadedSamples.getD
        (([0] : List ℕ).getD (pCat.roundRobinCounters 60 % ([0] : List ℕ).length) 0)
        defaultPreloadedSample)) 60 1)
    [voiceA] ((min (1 : ℤ) maxStreamingVoices).toNat)
    (by
      intro j hj
      have : j = 0 := by
        have : (min (1 : ℤ) maxStreamingVoices).toNat = 1 := by decide
        omega
      subst this
      decide)
  rw [h3, h2]
  rfl

/-! ## C3: underrun fade -/

unseal Rat.add Rat.mul Rat.inv Rat.sub in
/-- C3: (1) while a streaming sample renders, a frame that sees at most 2
available frames (`cWP - cRP ≤ 2`) with EOF not signalled and no fade in
progress enters the underrun fade (the frame itself still renders at
factor 1 and the fade counter becomes 1); (2) each fading frame is
multiplied by the linearly decreasing factor `1 - k/64` (so the fade spans
`UNDERRUN_FADE = 64` samples) and advances the counter; (3) when the
factor reaches zero (counter 64) the frame calls `reset()` and the voice
deactivates; (4) concretely, when the disk thread never runs, a streaming
voice with a 4-frame preload at pitch ratio 1 plays its preload, fades
linearly over 64 samples (factors `1 - k/64`, `k = 0..63`), and is
inactive by the 67th frame while still active after 66. -/
theorem c3_underrun_fade :
    (∀ (env : ℕ → ℚ × Bool) (total : ℤ) (preload : AudioBuf) (nch cWP : ℤ)
        (idx : ℕ) (v : Voice) (cRP : ℤ),
      v.sourceSamplePosition < (total : ℚ) → (env idx).2 = true →
      v.endOfFile = false → v.isUnderrunning = false → cWP - cRP ≤ 2 →
      ∃ v3 c2 out,
        renderFrame env total true preload nch cWP idx v cRP = Sum.inr (v3, c2, out) ∧
        v3.isUnderrunning = true ∧ v3.underrunFadePosition = 1 ∧ out.fade = 1) ∧
    (∀ (env : ℕ → ℚ × Bool) (total : ℤ) (b : Bool) (preload : AudioBuf)
        (nch cWP : ℤ) (idx : ℕ) (v : Voice) (cRP : ℤ) (k : ℕ),
      v.sourceSamplePosition < (total : ℚ) → (env idx).2 = true →
      v.isUnderrunning = true → v.underrunFadePosition = k → k < 64 →
      ∃ v3 c2 out,
        renderFrame env total b preload nch cWP idx v cRP = Sum.inr (v3, c2, out) ∧
        out.fade = 1 - (k : ℚ) / 64 ∧ v3.underrunFadePosition = k + 1 ∧
        v3.isUnderrunning = true) ∧
    (∀ (env : ℕ → ℚ × Bool) (total : ℤ) (b : Bool) (preload : AudioBuf)
        (nch cWP : ℤ) (idx : ℕ) (v : Voice) (cRP : ℤ),
      v.sourceSamplePosition < (total : ℚ) → (env idx).2 = true →
      v.isUnderrunning = true → v.underrunFadePosition = 64 →
      renderFrame env total b preload nch cWP idx v cRP = Sum.inl v.reset ∧
        v.reset.active = false) ∧
    ((voiceA.renderNextBlock envConstOne 67).1.active = false ∧
      (voiceA.renderNextBlock envConstOne 66).1.active = true ∧
      (voiceA.renderNextBlock envConstOne 67).2.map FrameOut.fade
        = [1, 1] ++ (List.range 64).map (fun k => 1 - (k : ℚ) / 64)) := by
  refine ⟨?_, ?_, ?_, by decide⟩
  · intro env total preload nch cWP idx v cRP hsrc henv heof hun havail
    have huc : underrunCheck true cWP cRP v
        = { v with isUnderrunning := true, underrunFadePosition := 0 } := by
      unfold underrunCheck
      rw [if_pos ⟨rfl, havail, heof, hun⟩]
    have hfv : underrunFadeValue (underrunCheck true cWP cRP v) = 1 := by
      rw [huc]
      unfold underrunFadeValue
      norm_num
    unfold renderFrame
    rw [if_neg (not_le.mpr hsrc)]
    rw [if_neg (by simp [henv])]
    rw [if_neg (by rw [hfv]; rintro ⟨h_, hle⟩; linarith)]
    refine ⟨_, _, _, rfl, ?_, ?_, ?_⟩
    · simp [huc, underrunAdvance]
    · simp [huc, underrunAdvance]
    · show underrunFadeValue (underrunCheck true cWP cRP v) = 1
      exact hfv
  · intro env total b preload nch cWP idx v cRP k hsrc henv hun hk hklt
    have huc : underrunCheck b cWP cRP v = v := by
      unfold underrunCheck
      rw [if_neg (by simp [hun])]
    have hfv : underrunFadeValue (underrunCheck b cWP cRP v) = 1 - (k : ℚ) / 64 := by
      rw [huc]
      unfold underrunFadeValue
      rw [if_pos hun, hk]
    have hpos : 0 < 1 - (k : ℚ) / 64 := by
      have hk64 : (k : ℚ) < 64 := by exact_mod_cast hklt
      have : (k : ℚ) / 64 < 1 := (div_lt_one (by norm_num)).mpr hk64
      linarith
    unfold renderFrame
    rw [if_neg (not_le.mpr hsrc)]
    rw [if_neg (by simp [henv])]
    rw [if_neg (by rw [hfv]; rintro ⟨h_, hle⟩; linarith)]
    refine ⟨_, _, _, rfl, ?_, ?_, ?_⟩
    · show underrunFadeValue (underrunCheck b cWP cRP v) = 1 - (k : ℚ) / 64
      exact hfv
    · simp [huc, underrunAdvance, hun, hk]
    · simp [huc, underrunAdvance, hun]
  · intro env total b preload nch cWP idx v cRP hsrc henv hun hk64
    have huc : underrunCheck b cWP cRP v = v := by
      unfold underrunCheck
      rw [if_neg (by simp [hun])]
    have hfv : underrunFadeValue (underrunCheck b cWP cRP v) = 0 := by
      rw [huc]
      unfold underrunFadeValue
      rw [if_pos hun, hk64]
      norm_num
    constructor
    · unfold renderFrame
      rw [if_neg (not_le.mpr hsrc)]
      rw [if_neg (by simp [henv])]
      rw [if_pos ⟨by rw [huc]; exact hun, by rw [hfv]⟩]
      rw [huc]
    · simp

unseal Rat.add Rat.mul Rat.inv Rat.sub in
/-- Witness for C3: the three per-frame facts at concrete underrun states
(`voiceA` two frames before exhausting its 4-frame preload, `voiceFading`
mid-fade at counter 30, `voiceFadedOut` at counter 64). -/
theorem c3_witness :
    (∃ v3 c2 out,
      renderFrame envConstOne 1000 true sampleA.preloadBuffer 2 4 0 voiceA 2
        = Sum.inr (v3, c2, out) ∧
      v3.isUnderrunning = true ∧ v3.underrunFadePosition = 1 ∧ out.fade = 1) ∧
    (∃ v3 c2 out,
      renderFrame envConstOne 1000 true sampleA.preloadBuffer 2 4 0 voiceFading 4
        = Sum.inr (v3, c2, out) ∧
      out.fade = 1 - (30 : ℚ) / 64 ∧ v3.underrunFadePosition = 31 ∧
      v3.isUnderrunning = true) ∧
    (renderFrame envConstOne 1000 true sampleA.preloadBuffer 2 4 0 voiceFadedOut 4
        = Sum.inl voiceFadedOut.reset ∧
      voiceFadedOut.reset.active = false) :=
  ⟨c3_underrun_fade.1 envConstOne 1000 sampleA.preloadBuffer 2 4 0 voiceA 2
      (by decide) rfl (by decide) (by decide)
      (by decide),
   c3_underrun_fade.2.1 envConstOne 1000 true sampleA.preloadBuffer 2 4 0
      voiceFading 4 30
      (by decide) rfl (by decide)
      (by decide) (by decide),
   c3_underrun_fade.2.2.1 envConstOne 1000 true sampleA.preloadBuffer 2 4 0
      voiceFadedOut 4
      (by decide) rfl
      (by decide) (by decide)⟩

end SSS
